import Mathlib

/-!
Verification of the content-analysis-and-scoring pipeline of the stock
recommendation system.  The Python sources are shallowly embedded here:
machine floats become exact rationals (`ℚ`), with `Real.exp` / `Real.tanh`
for the transcendental steps, and Python's `round(x, n)` modelled by
rounding to the nearest multiple of `10⁻ⁿ`.
-/

namespace StockRec

/-! ### Recommendation scorer (`app/recommendation/scoring.py`) -/

/-- The four weight attributes stored on a `RecommendationScorer`. -/
@[ext]
structure ScorerWeights where
  sentiment_weight : ℚ
  frequency_weight : ℚ
  recency_weight : ℚ
  consistency_weight : ℚ
deriving DecidableEq, Repr

/-- Python `x or default` for a float parameter whose default is `None`:
both `None` (modelled `none`) and `0.0` are falsy and yield the default;
every other value is kept. -/
def orDefault (x : Option ℚ) (d : ℚ) : ℚ :=
  match x with
  | none => d
  | some v => if v = 0 then d else v

/-- The stored weights after the four `or`-default lines of
`RecommendationScorer.__init__`, before normalization.  The defaults come
from `RECOMMENDATION_CONFIG`: 0.4 / 0.2 / 0.2 / 0.2. -/
def rawWeights (s f r c : Option ℚ) : ScorerWeights :=
  { sentiment_weight := orDefault s (2/5)
    frequency_weight := orDefault f (1/5)
    recency_weight := orDefault r (1/5)
    consistency_weight := orDefault c (1/5) }

/-- `total_weight` computed in `__init__`. -/
def ScorerWeights.totalWeight (w : ScorerWeights) : ℚ :=
  w.sentiment_weight + w.frequency_weight + w.recency_weight + w.consistency_weight

/-- `RecommendationScorer.__init__`: substitute defaults for falsy
arguments, then divide each stored weight by their sum.  Python raises
`ZeroDivisionError` when the sum is zero; that failure is modelled by
`none`. -/
def initScorer (s f r c : Option ℚ) : Option ScorerWeights :=
  let w := rawWeights s f r c
  let t := w.totalWeight
  if t = 0 then none
  else some ⟨w.sentiment_weight / t, w.frequency_weight / t,
             w.recency_weight / t, w.consistency_weight / t⟩

/-- The sentiment-summary dictionary consumed by `calculate_score`
(produced by `SentimentAnalyzer.get_sentiment_summary`). -/
structure SentimentSummary where
  avg_score : ℚ
  positive_count : ℕ
  negative_count : ℕ
  neutral_count : ℕ
  total : ℕ
deriving DecidableEq, Repr

/-- `RecommendationScorer._normalize_sentiment`. -/
def normalize_sentiment (s : ℚ) : ℚ :=
  max 0 (min 100 ((s + 1) / 2 * 100))

/-- `RecommendationScorer._calculate_frequency_score`. -/
noncomputable def calculate_frequency_score (news_count : ℤ) : ℝ :=
  if news_count ≤ 0 then 0
  else min 100 (100 * (1 - Real.exp (-(news_count : ℝ) / 20)))

/-- `RecommendationScorer._calculate_recency_score`. -/
noncomputable def calculate_recency_score (days : ℤ) : ℝ :=
  if days ≤ 0 then 100
  else max 0 (100 * Real.exp (-(days : ℝ) / 30))

/-- `RecommendationScorer._calculate_consistency_score`. -/
def calculate_consistency_score (s : SentimentSummary) : ℚ :=
  if s.total = 0 then 50
  else
    let dominance : ℚ := (max s.positive_count (max s.negative_count s.neutral_count) : ℕ) / (s.total : ℚ)
    let consistency := dominance * 100
    if s.positive_count > s.negative_count ∧ s.positive_count > s.neutral_count then
      min 100 (consistency * (11/10))
    else if s.negative_count > s.positive_count ∧ s.negative_count > s.neutral_count then
      consistency * (9/10)
    else consistency

/-- `RecommendationScorer._get_recommendation_label`. -/
noncomputable def get_recommendation_label (score : ℝ) (sentiment : ℚ) : String :=
  if score ≥ 75 ∧ sentiment > 3/10 then "Strong Buy"
  else if score ≥ 60 ∧ sentiment > 1/10 then "Buy"
  else if score ≥ 40 ∨ (sentiment > -(1/5) ∧ sentiment < 1/5) then "Hold"
  else if score ≥ 25 ∨ sentiment > -(2/5) then "Sell"
  else "Strong Sell"

/-- Round a real number to `n` decimal places, Python's `round(x, n)`.
Python rounds the nearest double half-to-even; at non-tie points (all that
occur in this development) that agrees with rounding to the nearest
multiple of `10⁻ⁿ`. -/
noncomputable def roundToR (n : ℕ) (x : ℝ) : ℝ :=
  ((round (x * 10 ^ n) : ℤ) : ℝ) / 10 ^ n

/-- The dictionary returned by `RecommendationScorer.calculate_score`. -/
structure ScoreResult where
  total_score : ℝ
  sentiment_score : ℝ
  frequency_score : ℝ
  recency_score : ℝ
  consistency_score : ℝ
  recommendation_label : String
  weights : ScorerWeights

/-- `RecommendationScorer.calculate_score`, given the normalized weights
stored by `__init__`. -/
noncomputable def calculate_score (W : ScorerWeights) (summary : SentimentSummary)
    (news_count : ℤ) (recency_days : ℤ) (similarity_score : ℚ) : ScoreResult :=
  let avg_sentiment := summary.avg_score
  let sentiment_score : ℚ := normalize_sentiment avg_sentiment
  let frequency_score : ℝ := calculate_frequency_score news_count
  let recency_score : ℝ := calculate_recency_score recency_days
  let consistency_score : ℚ := calculate_consistency_score summary
  let base : ℝ := (sentiment_score : ℝ) * (W.sentiment_weight : ℝ)
      + frequency_score * (W.frequency_weight : ℝ)
      + recency_score * (W.recency_weight : ℝ)
      + (consistency_score : ℝ) * (W.consistency_weight : ℝ)
  let total_score : ℝ :=
    if similarity_score > 0 then base * (9/10) + ((similarity_score : ℝ) * 100) * (1/10)
    else base
  { total_score := roundToR 2 total_score
    sentiment_score := roundToR 2 (sentiment_score : ℝ)
    frequency_score := roundToR 2 frequency_score
    recency_score := roundToR 2 recency_score
    consistency_score := roundToR 2 (consistency_score : ℝ)
    recommendation_label := get_recommendation_label total_score avg_sentiment
    weights := W }

/-- Constructing a scorer from raw weights and immediately calling
`calculate_score`; `none` when the constructor fails. -/
noncomputable def scoreFromRaw (s f r c : Option ℚ) (summary : SentimentSummary)
    (news_count recency_days : ℤ) (similarity_score : ℚ) : Option ScoreResult :=
  (initScorer s f r c).map fun W => calculate_score W summary news_count recency_days similarity_score

section
open Classical

/-- Spec-side evaluator for a decision table: rows are evaluated top-down
and the first row whose condition holds supplies the result. -/
noncomputable def firstMatch : List (Prop × String) → String
  | [] => ""
  | (c, l) :: rest => if c then l else firstMatch rest

end

/-- Modelled from the spec's words: the five-row label table of §4.5,
with the catch-all `otherwise` row last. -/
def specLabelRows (total : ℝ) (avg_sentiment : ℚ) : List (Prop × String) :=
  [ (total ≥ 75 ∧ avg_sentiment > 3/10, "Strong Buy"),
    (total ≥ 60 ∧ avg_sentiment > 1/10, "Buy"),
    (total ≥ 40 ∨ (avg_sentiment > -(1/5) ∧ avg_sentiment < 1/5), "Hold"),
    (total ≥ 25 ∨ avg_sentiment > -(2/5), "Sell"),
    (True, "Strong Sell") ]

/-- Auxiliary: positivity of an `or`-defaulted weight when the supplied
value is nonnegative. -/
theorem orDefault_pos {o : Option ℚ} {d : ℚ} (ho : ∀ x ∈ o, 0 ≤ x) (hd : 0 < d) :
    0 < orDefault o d := by
  cases o with
  | none => exact hd
  | some v =>
    by_cases hv : v = 0
    · simpa [orDefault, hv] using hd
    · have hv' : 0 ≤ v := ho v (by simp)
      simp only [orDefault, if_neg hv]
      exact lt_of_le_of_ne hv' (Ne.symm hv)

/-- Auxiliary: an `or`-defaulted weight is never zero when the default is
nonzero. -/
theorem orDefault_ne_zero {o : Option ℚ} {d : ℚ} (hd : d ≠ 0) :
    orDefault o d ≠ 0 := by
  cases o with
  | none => exact hd
  | some v =>
    by_cases hv : v = 0
    · simp only [orDefault, if_pos hv]
      exact hd
    · simp only [orDefault, if_neg hv]
      exact hv

/-- Auxiliary: a strictly positive supplied weight passes through the
`or`-default untouched. -/
theorem orDefault_of_pos {v d : ℚ} (hv : 0 < v) : orDefault (some v) d = v := by
  simp [orDefault, ne_of_gt hv]

/-- Auxiliary: the constructor on four strictly positive raw weights. -/
theorem initScorer_of_pos {w1 w2 w3 w4 : ℚ} (h1 : 0 < w1) (h2 : 0 < w2)
    (h3 : 0 < w3) (h4 : 0 < w4) :
    initScorer (some w1) (some w2) (some w3) (some w4) =
      some ⟨w1 / (w1 + w2 + w3 + w4), w2 / (w1 + w2 + w3 + w4),
            w3 / (w1 + w2 + w3 + w4), w4 / (w1 + w2 + w3 + w4)⟩ := by
  have ht : w1 + w2 + w3 + w4 ≠ 0 := by positivity
  simp [initScorer, rawWeights, ScorerWeights.totalWeight,
    orDefault_of_pos h1, orDefault_of_pos h2, orDefault_of_pos h3, orDefault_of_pos h4, ht]

/-- C1: scaling all four positive raw weights by a positive scalar leaves
the constructed scorer, hence every `calculate_score` result, unchanged;
and the effective weights stored after construction sum to 1. -/
theorem scorer_scale_invariance (w1 w2 w3 w4 k : ℚ)
    (h1 : 0 < w1) (h2 : 0 < w2) (h3 : 0 < w3) (h4 : 0 < w4) (hk : 0 < k) :
    (∀ summary news_count recency_days similarity,
      scoreFromRaw (some (k * w1)) (some (k * w2)) (some (k * w3)) (some (k * w4))
          summary news_count recency_days similarity
        = scoreFromRaw (some w1) (some w2) (some w3) (some w4)
          summary news_count recency_days similarity)
    ∧ ∀ W, initScorer (some w1) (some w2) (some w3) (some w4) = some W →
        W.sentiment_weight + W.frequency_weight + W.recency_weight + W.consistency_weight = 1 := by
  have ht : w1 + w2 + w3 + w4 ≠ 0 := by positivity
  have hkne : k ≠ 0 := ne_of_gt hk
  have hinit : initScorer (some (k * w1)) (some (k * w2)) (some (k * w3)) (some (k * w4)) =
      initScorer (some w1) (some w2) (some w3) (some w4) := by
    rw [initScorer_of_pos h1 h2 h3 h4,
      initScorer_of_pos (mul_pos hk h1) (mul_pos hk h2) (mul_pos hk h3) (mul_pos hk h4)]
    have hsum : k * w1 + k * w2 + k * w3 + k * w4 = k * (w1 + w2 + w3 + w4) := by ring
    congr 1
    ext <;> simp only [hsum] <;> rw [mul_div_mul_left _ _ hkne]
  refine ⟨fun summary nc rd sim => ?_, fun W hW => ?_⟩
  · simp [scoreFromRaw, hinit]
  · rw [initScorer_of_pos h1 h2 h3 h4] at hW
    obtain rfl : W = ⟨w1 / (w1 + w2 + w3 + w4), w2 / (w1 + w2 + w3 + w4),
        w3 / (w1 + w2 + w3 + w4), w4 / (w1 + w2 + w3 + w4)⟩ := by
      exact (Option.some_injective _ hW).symm
    show w1 / (w1 + w2 + w3 + w4) + w2 / (w1 + w2 + w3 + w4)
        + w3 / (w1 + w2 + w3 + w4) + w4 / (w1 + w2 + w3 + w4) = 1
    field_simp

/-- Witness for C1 at concrete weights (1,1,1,1), scale 2. -/
theorem scorer_scale_invariance_witness :
    scoreFromRaw (some 2) (some 2) (some 2) (some 2) ⟨1/2, 3, 1, 1, 5⟩ 10 2 0
      = scoreFromRaw (some 1) (some 1) (some 1) (some 1) ⟨1/2, 3, 1, 1, 5⟩ 10 2 0 := by
  have h := (scorer_scale_invariance 1 1 1 1 2 (by norm_num) (by norm_num) (by norm_num)
    (by norm_num) (by norm_num)).1 ⟨1/2, 3, 1, 1, 5⟩ 10 2 0
  simpa using h

/-- C2: the recommendation label is exactly the spec's five-row decision
table evaluated top-down with first match winning. -/
theorem label_decision_table (score : ℝ) (sentiment : ℚ) :
    get_recommendation_label score sentiment = firstMatch (specLabelRows score sentiment) := by
  simp only [get_recommendation_label, specLabelRows, firstMatch]
  split_ifs <;> rfl

/-- Auxiliary: the constructor on four zero raw weights normalizes the
substituted defaults. -/
theorem initScorer_zero_default :
    initScorer (some 0) (some 0) (some 0) (some 0) = some ⟨2/5, 1/5, 1/5, 1/5⟩ := by
  simp only [initScorer, rawWeights, orDefault, ScorerWeights.totalWeight]
  norm_num

/-- C3 counterexample: constructing a scorer with all four raw weights
equal to zero succeeds and `calculate_score` still returns a result
(the falsy zeros are replaced by the defaults), contradicting the claim
that it fails. -/
theorem zero_weights_counterexample :
    (scoreFromRaw (some 0) (some 0) (some 0) (some 0) ⟨0, 0, 0, 0, 0⟩ 0 0 0).isSome = true := by
  simp [scoreFromRaw, initScorer_zero_default]

/-- C3 amended: with all four raw weights zero, every zero is falsy and
replaced by its default before normalization, so construction succeeds
with the normalized default weights (0.4, 0.2, 0.2, 0.2) and a score is
returned for every input. -/
theorem zero_weights_amended :
    initScorer (some 0) (some 0) (some 0) (some 0) = some ⟨2/5, 1/5, 1/5, 1/5⟩
    ∧ ∀ summary news_count recency_days similarity,
        (scoreFromRaw (some 0) (some 0) (some 0) (some 0)
          summary news_count recency_days similarity).isSome = true :=
  ⟨initScorer_zero_default,
    fun _summary _nc _rd _sim => by simp [scoreFromRaw, initScorer_zero_default]⟩

/-- C9 counterexample: a caller-supplied negative weight is truthy and is
stored as-is before normalization, so the pre-normalization weight of a
construction is not always strictly positive. -/
theorem falsy_default_counterexample :
    (rawWeights (some (-1)) none none none).sentiment_weight = -1 ∧
      ¬ 0 < (rawWeights (some (-1)) none none none).sentiment_weight := by
  constructor <;> norm_num [rawWeights, orDefault]

/-- C9 amended: a weight argument that is omitted or equal to zero is
replaced by its configured default (0.4 / 0.2 / 0.2 / 0.2), so no stored
pre-normalization weight is ever zero, and when every supplied weight is
nonnegative all four stored pre-normalization weights are strictly
positive; a negative supplied weight, however, is stored unchanged. -/
theorem falsy_default_amended (s f r c : Option ℚ)
    (hs : ∀ x ∈ s, 0 ≤ x) (hf : ∀ x ∈ f, 0 ≤ x)
    (hr : ∀ x ∈ r, 0 ≤ x) (hc : ∀ x ∈ c, 0 ≤ x) :
    (0 < (rawWeights s f r c).sentiment_weight
      ∧ 0 < (rawWeights s f r c).frequency_weight
      ∧ 0 < (rawWeights s f r c).recency_weight
      ∧ 0 < (rawWeights s f r c).consistency_weight)
    ∧ rawWeights none none none none = ⟨2/5, 1/5, 1/5, 1/5⟩
    ∧ rawWeights (some 0) (some 0) (some 0) (some 0) = ⟨2/5, 1/5, 1/5, 1/5⟩
    ∧ (rawWeights s f r c).sentiment_weight ≠ 0
    ∧ (rawWeights s f r c).frequency_weight ≠ 0
    ∧ (rawWeights s f r c).recency_weight ≠ 0
    ∧ (rawWeights s f r c).consistency_weight ≠ 0 := by
  refine ⟨⟨orDefault_pos hs (by norm_num), orDefault_pos hf (by norm_num),
      orDefault_pos hr (by norm_num), orDefault_pos hc (by norm_num)⟩,
    by simp [rawWeights, orDefault], by simp [rawWeights, orDefault],
    orDefault_ne_zero (by norm_num), orDefault_ne_zero (by norm_num),
    orDefault_ne_zero (by norm_num), orDefault_ne_zero (by norm_num)⟩

/-- Witness for C9 amended at concrete arguments. -/
theorem falsy_default_amended_witness :
    0 < (rawWeights (some 1) none (some 0) (some (1/2))).sentiment_weight ∧
      (rawWeights (some 1) none (some 0) (some (1/2))).recency_weight ≠ 0 := by
  have h := falsy_default_amended (some 1) none (some 0) (some (1/2))
    (by simp) (by simp) (by simp) (by norm_num)
  exact ⟨h.1.1, h.2.2.2.2.2.1⟩

/-! ### Sentiment analyzer (`app/nlp/sentiment.py`)

`SentimentAnalyzer.analyze` first cleans the text and splits it on
whitespace; the scan below is embedded over the resulting token list. -/

/-- `_build_positive_lexicon`: term → score (scores in (0, 1]). -/
def positive_words : List (String × ℚ) :=
  [ ("untung", 1), ("laba", 1), ("profit", 1), ("surplus", 1),
    ("melonjak", 1), ("meroket", 1), ("melejit", 1), ("melesat", 1),
    ("rekor", 1), ("tertinggi", 1), ("terbaik", 1), ("optimal", 1),
    ("sukses", 1), ("berhasil", 1), ("prestasi", 1), ("keberhasilan", 1),
    ("naik", 7/10), ("meningkat", 7/10), ("tumbuh", 7/10), ("berkembang", 7/10),
    ("menguat", 7/10), ("positif", 7/10), ("optimis", 7/10), ("prospek", 7/10),
    ("potensi", 7/10), ("peluang", 7/10), ("ekspansi", 7/10), ("investasi", 3/5),
    ("dividen", 7/10), ("bonus", 7/10), ("akuisisi", 3/5), ("merger", 1/2),
    ("stabil", 1/2), ("solid", 1/2), ("konsisten", 1/2), ("bagus", 1/2),
    ("baik", 1/2), ("mendukung", 1/2), ("apresiasi", 1/2), ("pulih", 1/2),
    ("recovery", 1/2), ("rebound", 3/5), ("breakout", 3/5), ("rally", 7/10),
    ("beli", 4/5), ("buy", 4/5), ("accumulate", 7/10), ("akumulasi", 7/10),
    ("overweight", 3/5), ("outperform", 7/10), ("rekomen", 1/2),
    ("support", 2/5), ("bullish", 4/5), ("uptrend", 7/10), ("golden cross", 4/5) ]

/-- `_build_negative_lexicon`: term → score (scores in [-1, 0)). -/
def negative_words : List (String × ℚ) :=
  [ ("rugi", -1), ("kerugian", -1), ("loss", -1), ("defisit", -1),
    ("anjlok", -1), ("ambruk", -1), ("jatuh", -(9/10)), ("terjun", -(9/10)),
    ("kolaps", -1), ("bangkrut", -1), ("pailit", -1), ("gagal", -(9/10)),
    ("terburuk", -1), ("terendah", -(9/10)), ("krisis", -1), ("resesi", -1),
    ("turun", -(7/10)), ("menurun", -(7/10)), ("melemah", -(7/10)), ("merosot", -(7/10)),
    ("susut", -(7/10)), ("negatif", -(7/10)), ("pesimis", -(7/10)), ("khawatir", -(3/5)),
    ("risiko", -(1/2)), ("ancaman", -(7/10)), ("tekanan", -(3/5)), ("beban", -(1/2)),
    ("hutang", -(1/2)), ("utang", -(1/2)), ("koreksi", -(1/2)), ("pelemahan", -(3/5)),
    ("lambat", -(2/5)), ("stagnan", -(1/2)), ("flat", -(3/10)), ("tertahan", -(2/5)),
    ("terbatas", -(3/10)), ("tantangan", -(2/5)), ("kendala", -(1/2)), ("hambatan", -(1/2)),
    ("volatil", -(2/5)), ("fluktuatif", -(3/10)), ("tidak pasti", -(1/2)),
    ("jual", -(4/5)), ("sell", -(4/5)), ("reduce", -(7/10)), ("kurangi", -(3/5)),
    ("underweight", -(3/5)), ("underperform", -(7/10)), ("hindari", -(7/10)),
    ("resistance", -(3/10)), ("bearish", -(4/5)), ("downtrend", -(7/10)),
    ("death cross", -(4/5)), ("breakdown", -(3/5)), ("overbought", -(2/5)),
    ("oversold", -(3/10)), ("fraud", -1), ("korupsi", -1), ("manipulasi", -(9/10)),
    ("skandal", -(9/10)), ("investigasi", -(3/5)), ("gugatan", -(7/10)), ("sengketa", -(3/5)) ]

/-- `self.intensifiers`: word → multiplier. -/
def intensifiers : List (String × ℚ) :=
  [ ("sangat", 3/2), ("amat", 3/2), ("sekali", 13/10), ("begitu", 13/10),
    ("paling", 3/2), ("ter", 13/10), ("sungguh", 7/5), ("benar", 13/10),
    ("lumayan", 6/5), ("cukup", 11/10), ("agak", 4/5), ("sedikit", 7/10),
    ("kurang", 3/5), ("hampir", 9/10), ("nyaris", 9/10) ]

/-- `self.negations`: the set of negation words. -/
def negations : List String :=
  ["tidak", "bukan", "belum", "tanpa", "jangan", "tak", "tiada",
   "enggan", "gagal", "mustahil", "tidak ada"]

/-- The mutable loop state of `analyze`: the two match buckets, the
accumulated score and the matched-word count. -/
@[ext]
structure ScanState where
  positive_found : List (String × ℚ)
  negative_found : List (String × ℚ)
  total_score : ℚ
  word_count : ℕ
deriving DecidableEq, Repr

/-- The `intensifier` value for the current token given the previous
token (1.0 unless the previous token is an intensifier). -/
def intensifierAt (prev : Option String) : ℚ :=
  match prev with
  | none => 1
  | some p => (intensifiers.lookup p).getD 1

/-- The `has_negation` flag for the current token. -/
def hasNegation (prev : Option String) : Bool :=
  match prev with
  | none => false
  | some p => negations.contains p

/-- The unigram part of one iteration of the `analyze` scan: check the
current token against the positive then the negative lexicon, applying
negation (flip sign, halve, record in the opposite bucket) and the
intensifier multiplier. -/
def uniStep (prev : Option String) (token : String) (st : ScanState) : ScanState :=
  match positive_words.lookup token with
  | some s =>
    let score := s * intensifierAt prev
    if hasNegation prev then
      let score := -score * (1/2)
      { st with negative_found := st.negative_found ++ [(token, score)],
                total_score := st.total_score + score,
                word_count := st.word_count + 1 }
    else
      { st with positive_found := st.positive_found ++ [(token, score)],
                total_score := st.total_score + score,
                word_count := st.word_count + 1 }
  | none =>
    match negative_words.lookup token with
    | some s =>
      let score := s * intensifierAt prev
      if hasNegation prev then
        let score := -score * (1/2)
        { st with positive_found := st.positive_found ++ [(token, |score|)],
                  total_score := st.total_score + score,
                  word_count := st.word_count + 1 }
      else
        { st with negative_found := st.negative_found ++ [(token, score)],
                  total_score := st.total_score + score,
                  word_count := st.word_count + 1 }
    | none => st

/-- The bigram part of one iteration of the `analyze` scan: check the
two-token window against both lexicons (no negation or intensifier). -/
def biStep (token : String) (next : Option String) (st : ScanState) : ScanState :=
  match next with
  | none => st
  | some nx =>
    let bigram := token ++ " " ++ nx
    match positive_words.lookup bigram with
    | some s =>
      { st with positive_found := st.positive_found ++ [(bigram, s)],
                total_score := st.total_score + s,
                word_count := st.word_count + 1 }
    | none =>
      match negative_words.lookup bigram with
      | some s =>
        { st with negative_found := st.negative_found ++ [(bigram, s)],
                  total_score := st.total_score + s,
                  word_count := st.word_count + 1 }
      | none => st

/-- The left-to-right token scan of `analyze` (the `while i < len(tokens)`
loop), carrying the previous token for negation/intensifier lookups. -/
def scanTokens : Option String → List String → ScanState → ScanState
  | _, [], st => st
  | prev, t :: rest, st => scanTokens (some t) rest (biStep t rest.head? (uniStep prev t st))

/-- The final loop state of `analyze` on a token list. -/
def analyzeCore (tokens : List String) : ScanState :=
  scanTokens none tokens ⟨[], [], 0, 0⟩

/-- Round a rational to `n` decimal places (`round(x, n)` on an exactly
representable value). -/
def roundToQ (n : ℕ) (x : ℚ) : ℚ :=
  ((round (x * 10 ^ n) : ℤ) : ℚ) / 10 ^ n

/-- The sentiment score computed by `analyze` before the final
`round(..., 4)`: `tanh(total_score / word_count)`, or 0.0 when no
sentiment word matched. -/
noncomputable def rawSentimentScore (tokens : List String) : ℝ :=
  let st := analyzeCore tokens
  if 0 < st.word_count then
    Real.tanh ((st.total_score : ℝ) / (st.word_count : ℝ))
  else 0

/-- The dictionary returned by `SentimentAnalyzer.analyze`. -/
structure SentimentResult where
  sentiment_score : ℝ
  sentiment_label : String
  confidence : ℝ
  positive_found : List (String × ℚ)
  negative_found : List (String × ℚ)
  total_sentiment_words : ℕ
  raw_score : ℚ
  text_length : ℕ

/-- `SentimentAnalyzer.analyze` on the token list of the cleaned text.
The label thresholds compare the un-rounded score; the returned
`sentiment_score` is rounded to 4 decimal places. -/
noncomputable def analyze (tokens : List String) : SentimentResult :=
  let st := analyzeCore tokens
  let sentiment_score := rawSentimentScore tokens
  let sentiment_label :=
    if sentiment_score > 1/5 then "positif"
    else if sentiment_score < -(1/5) then "negatif"
    else "netral"
  let confidence : ℝ :=
    if 0 < st.word_count then
      min 1 ((st.word_count : ℝ) / 10 * |sentiment_score| + 3/10)
    else 0
  { sentiment_score := roundToR 4 sentiment_score
    sentiment_label := sentiment_label
    confidence := roundToR 4 confidence
    positive_found := st.positive_found
    negative_found := st.negative_found
    total_sentiment_words := st.word_count
    raw_score := roundToQ 4 st.total_score
    text_length := tokens.length }

/-- The dictionary returned by `get_sentiment_summary`. -/
structure SummaryStats where
  avg_score : ℝ
  positive_count : ℕ
  negative_count : ℕ
  neutral_count : ℕ
  total : ℕ
  min_score : Option ℝ
  max_score : Option ℝ

/-- `SentimentAnalyzer.get_sentiment_summary`: per-label counts and mean
score over a list of results; a zero/neutral summary (without min/max)
on the empty list. -/
noncomputable def get_sentiment_summary (results : List SentimentResult) : SummaryStats :=
  match results with
  | [] => ⟨0, 0, 0, 0, 0, none, none⟩
  | r :: rest =>
    let scores := (r :: rest).map SentimentResult.sentiment_score
    let labels := (r :: rest).map SentimentResult.sentiment_label
    { avg_score := roundToR 4 (scores.sum / (scores.length : ℝ))
      positive_count := labels.count "positif"
      negative_count := labels.count "negatif"
      neutral_count := labels.count "netral"
      total := (r :: rest).length
      min_score := some (roundToR 4 (rest.foldl (fun a b => min a b.sentiment_score) r.sentiment_score))
      max_score := some (roundToR 4 (rest.foldl (fun a b => max a b.sentiment_score) r.sentiment_score)) }

/-- C5: whenever the scan reaches a positive-lexicon token whose
immediately preceding token is a negation word, the unigram transition
adds exactly `-0.5 × lexicon_score × intensifier` to the accumulated
total, records the match under the negative bucket with that value, and
leaves the positive bucket unchanged; `uniStep` is precisely the unigram
transition `scanTokens` applies at every position. -/
theorem negated_positive_contribution (p token : String) (s : ℚ) (st : ScanState)
    (hneg : p ∈ negations) (hpos : positive_words.lookup token = some s) :
    (uniStep (some p) token st).total_score
        = st.total_score + -(1/2) * (s * intensifierAt (some p))
    ∧ (uniStep (some p) token st).negative_found
        = st.negative_found ++ [(token, -(1/2) * (s * intensifierAt (some p)))]
    ∧ (uniStep (some p) token st).positive_found = st.positive_found
    ∧ ∀ rest, scanTokens (some p) (token :: rest) st
        = scanTokens (some token) rest (biStep token rest.head? (uniStep (some p) token st)) := by
  have hn : hasNegation (some p) = true := by
    fin_cases hneg <;> decide
  refine ⟨?_, ?_, ?_, fun rest => rfl⟩ <;>
    simp only [uniStep, hpos, hn, if_true] <;> ring_nf

/-- Witness for C5: `"tidak naik"` (negated "rise") contributes
`-0.5 × 0.7 × 1.0` to the total. -/
theorem negated_positive_contribution_witness :
    (uniStep (some "tidak") "naik" ⟨[], [], 0, 0⟩).total_score
      = 0 + -(1/2) * (7/10 * intensifierAt (some "tidak")) :=
  (negated_positive_contribution "tidak" "naik" (7/10) ⟨[], [], 0, 0⟩
    (by decide) rfl).1

/-- Auxiliary: the label produced by `analyze` is always one of the three
expected strings. -/
theorem analyze_label_trichotomy (tokens : List String) :
    (analyze tokens).sentiment_label = "positif"
    ∨ (analyze tokens).sentiment_label = "negatif"
    ∨ (analyze tokens).sentiment_label = "netral" := by
  have h : (analyze tokens).sentiment_label =
      (if rawSentimentScore tokens > 1/5 then "positif"
       else if rawSentimentScore tokens < -(1/5) then "negatif"
       else "netral") := rfl
  rw [h]
  split_ifs <;> simp

/-- Auxiliary: counting the three label strings partitions any list
whose members are among them. -/
theorem count_labels_partition (ls : List String)
    (h : ∀ l ∈ ls, l = "positif" ∨ l = "negatif" ∨ l = "netral") :
    ls.count "positif" + ls.count "negatif" + ls.count "netral" = ls.length := by
  induction ls with
  | nil => simp
  | cons a as ih =>
    have ha := h a (by simp)
    have ih' := ih fun l hl => h l (by simp [hl])
    rcases ha with h1 | h1 | h1 <;> subst h1 <;>
      simp [List.count_cons] <;> omega

/-- C6: for results produced by `analyze`, the summary counts partition
the total, the total is the length of the input list, and the empty list
yields the zero/neutral summary. -/
theorem summary_counts_partition :
    (∀ tss : List (List String),
      (get_sentiment_summary (tss.map analyze)).positive_count
          + (get_sentiment_summary (tss.map analyze)).negative_count
          + (get_sentiment_summary (tss.map analyze)).neutral_count
        = (get_sentiment_summary (tss.map analyze)).total
      ∧ (get_sentiment_summary (tss.map analyze)).total = tss.length)
    ∧ get_sentiment_summary [] = ⟨0, 0, 0, 0, 0, none, none⟩ := by
  refine ⟨fun tss => ?_, rfl⟩
  cases tss with
  | nil => simp [get_sentiment_summary]
  | cons t ts =>
    have hmem : ∀ l ∈ ((t :: ts).map analyze).map SentimentResult.sentiment_label,
        l = "positif" ∨ l = "negatif" ∨ l = "netral" := by
      intro l hl
      simp only [List.map_map, List.mem_map] at hl
      obtain ⟨ts', _, rfl⟩ := hl
      exact analyze_label_trichotomy ts'
    have hcount := count_labels_partition _ hmem
    constructor
    · simpa [get_sentiment_summary] using hcount
    · simp [get_sentiment_summary]

/-- Auxiliary: a value whose 4-decimal rounding exceeds 0.2 itself
exceeds 0.2 (rounding moves a value by at most half of 10⁻⁴). -/
theorem gt_of_roundToR_gt {x : ℝ} (h : 1/5 < roundToR 4 x) : 1/5 < x := by
  have h10 : (0:ℝ) < 10 ^ 4 := by norm_num
  rw [roundToR, lt_div_iff₀ h10] at h
  norm_num at h
  have h3 : (2000 : ℤ) < round (x * 10 ^ 4) := by exact_mod_cast h
  have h4 : (2001 : ℤ) ≤ round (x * 10 ^ 4) := by omega
  have h5 : ((round (x * 10 ^ 4) : ℤ) : ℝ) ≤ x * 10 ^ 4 + 1 / 2 := by
    rw [round_eq]
    exact Int.floor_le (x * 10 ^ 4 + 1 / 2)
  have h6 : (2001 : ℝ) ≤ x * 10 ^ 4 + 1 / 2 := le_trans (by exact_mod_cast h4) h5
  linarith

/-- Auxiliary: a value whose 4-decimal rounding is below -0.2 is itself
below -0.2. -/
theorem lt_of_roundToR_lt {x : ℝ} (h : roundToR 4 x < -(1/5)) : x < -(1/5) := by
  have h10 : (0:ℝ) < 10 ^ 4 := by norm_num
  rw [roundToR, div_lt_iff₀ h10] at h
  norm_num at h
  have h3 : round (x * 10 ^ 4) < (-2000 : ℤ) := by exact_mod_cast h
  have h4 : round (x * 10 ^ 4) ≤ (-2001 : ℤ) := by omega
  have h5 : x * 10 ^ 4 - 1 / 2 < ((round (x * 10 ^ 4) : ℤ) : ℝ) := by
    rw [round_eq]
    have hf := Int.sub_one_lt_floor (x * 10 ^ 4 + 1 / 2)
    linarith
  have h6 : x * 10 ^ 4 - 1 / 2 < (-2001 : ℝ) :=
    lt_of_lt_of_le h5 (by exact_mod_cast h4)
  linarith

/-- C4 amended: the label is a pure threshold function of the un-rounded
sentiment score; with respect to the rounded, returned score the two
strict directions still hold (returned > 0.2 forces "positif", returned
< -0.2 forces "negatif"), but the neutral case is guaranteed only for
the un-rounded score. -/
theorem sentiment_label_thresholds (tokens : List String) :
    ((analyze tokens).sentiment_score > 1/5 → (analyze tokens).sentiment_label = "positif")
    ∧ ((analyze tokens).sentiment_score < -(1/5) → (analyze tokens).sentiment_label = "negatif")
    ∧ (¬ rawSentimentScore tokens > 1/5 → ¬ rawSentimentScore tokens < -(1/5) →
        (analyze tokens).sentiment_label = "netral") := by
  have hs : (analyze tokens).sentiment_score = roundToR 4 (rawSentimentScore tokens) := rfl
  have hl : (analyze tokens).sentiment_label =
      (if rawSentimentScore tokens > 1/5 then "positif"
       else if rawSentimentScore tokens < -(1/5) then "negatif"
       else "netral") := rfl
  refine ⟨fun h => ?_, fun h => ?_, fun h1 h2 => ?_⟩
  · rw [hl, if_pos (gt_of_roundToR_gt (hs ▸ h))]
  · have hx := lt_of_roundToR_lt (hs ▸ h)
    rw [hl, if_neg (by push_neg; linarith), if_pos hx]
  · rw [hl, if_neg h1, if_neg h2]

/-- Witness for C4 amended at the empty token list. -/
theorem sentiment_label_thresholds_witness :
    (analyze []).sentiment_label = "netral" := by
  have h0 : rawSentimentScore [] = 0 := rfl
  exact (sentiment_label_thresholds []).2.2 (by rw [h0]; norm_num) (by rw [h0]; norm_num)

/-- A 29-token input breaking the claim about the returned (rounded)
score: four intensified "naik" (0.7 × 1.1 each), sixteen "support" (0.4)
and nine "lambat" (-0.4); the total is 5.88 over 29 matched words, so
the average is 147/725 and `tanh (147/725)` lies strictly between 0.2
and 0.20005. -/
def counterexampleTokens : List String :=
  ["cukup", "naik", "cukup", "naik", "cukup", "naik", "cukup", "naik"]
    ++ List.replicate 16 "support" ++ List.replicate 9 "lambat"

/-- Auxiliary: the scan matches 29 sentiment words on the
counterexample input. -/
theorem counterexample_word_count :
    (analyzeCore counterexampleTokens).word_count = 29 := rfl

/-- Auxiliary: the accumulated total score on the counterexample input
is 5.88. -/
theorem counterexample_total_score :
    (analyzeCore counterexampleTokens).total_score = 147/25 := by
  have h : (analyzeCore counterexampleTokens).total_score =
      0 + 7/10 * (11/10) + 7/10 * (11/10) + 7/10 * (11/10) + 7/10 * (11/10)
        + 2/5 * 1 + 2/5 * 1 + 2/5 * 1 + 2/5 * 1 + 2/5 * 1 + 2/5 * 1 + 2/5 * 1 + 2/5 * 1
        + 2/5 * 1 + 2/5 * 1 + 2/5 * 1 + 2/5 * 1 + 2/5 * 1 + 2/5 * 1 + 2/5 * 1 + 2/5 * 1
        + -(2/5) * 1 + -(2/5) * 1 + -(2/5) * 1 + -(2/5) * 1 + -(2/5) * 1 + -(2/5) * 1
        + -(2/5) * 1 + -(2/5) * 1 + -(2/5) * 1 := rfl
  rw [h]
  norm_num

/-- Auxiliary: the un-rounded sentiment score of the counterexample
input is `tanh (147/725)`. -/
theorem counterexample_raw_score :
    rawSentimentScore counterexampleTokens = Real.tanh ((147 : ℝ)/725) := by
  have hq : (((147 : ℚ)/25 : ℚ) : ℝ) / ((29 : ℕ) : ℝ) = (147 : ℝ)/725 := by
    push_cast
    norm_num
  simp only [rawSentimentScore, counterexample_total_score, counterexample_word_count]
  rw [if_pos (by norm_num), hq]

/-- Auxiliary: `tanh (147/725)` lies strictly between 0.2 and 0.20005,
via degree-6 Taylor bounds on `exp (147/725)`. -/
theorem tanh_avg_bounds :
    1/5 < Real.tanh ((147 : ℝ)/725) ∧ Real.tanh ((147 : ℝ)/725) < 4001/20000 := by
  set x : ℝ := (147 : ℝ)/725 with hx
  have hx0 : 0 ≤ x := by rw [hx]; norm_num
  have hx1 : x ≤ 1 := by rw [hx]; norm_num
  have hu : (0:ℝ) < Real.exp x := Real.exp_pos x
  have hlo : (1.2247766 : ℝ) ≤ Real.exp x := by
    refine le_trans ?_ (Real.sum_le_exp_of_nonneg hx0 6)
    rw [hx]
    norm_num [Finset.sum_range_succ, Nat.factorial]
  have hhi : Real.exp x ≤ (1.2247769 : ℝ) := by
    refine le_trans (Real.exp_bound' hx0 hx1 (show 0 < 6 by norm_num)) ?_
    rw [hx]
    norm_num [Finset.sum_range_succ, Nat.factorial]
  have htanh : Real.tanh x = ((Real.exp x)^2 - 1)/((Real.exp x)^2 + 1) := by
    rw [Real.tanh_eq_sinh_div_cosh, Real.sinh_eq, Real.cosh_eq, Real.exp_neg]
    have h1 : Real.exp x ≠ 0 := ne_of_gt hu
    have h3 : Real.exp x + (Real.exp x)⁻¹ ≠ 0 := by positivity
    have h2 : (Real.exp x)^2 + 1 ≠ 0 := by positivity
    field_simp
    ring
  have hsq_lo : (3/2 : ℝ) < (Real.exp x)^2 := by
    nlinarith [hlo, hu]
  have hsq_hi : (Real.exp x)^2 < 24001/15999 := by
    nlinarith [hhi, hu]
  constructor
  · rw [htanh, lt_div_iff₀ (by positivity : (0:ℝ) < (Real.exp x)^2 + 1)]
    linarith
  · rw [htanh, div_lt_iff₀ (by positivity : (0:ℝ) < (Real.exp x)^2 + 1)]
    linarith

/-- C4 counterexample: on `counterexampleTokens` the returned label is
"positif" although the returned, 4-decimal-rounded `sentiment_score` is
exactly 0.2 — neither above 0.2 nor below -0.2 — so the claimed
"otherwise neutral" clause fails for the returned score. -/
theorem sentiment_label_counterexample :
    (analyze counterexampleTokens).sentiment_label = "positif"
    ∧ ¬ (analyze counterexampleTokens).sentiment_score > 1/5
    ∧ ¬ (analyze counterexampleTokens).sentiment_score < -(1/5) := by
  have hraw := counterexample_raw_score
  have hb := tanh_avg_bounds
  have hs : (analyze counterexampleTokens).sentiment_score
      = roundToR 4 (rawSentimentScore counterexampleTokens) := rfl
  have hl : (analyze counterexampleTokens).sentiment_label =
      (if rawSentimentScore counterexampleTokens > 1/5 then "positif"
       else if rawSentimentScore counterexampleTokens < -(1/5) then "negatif"
       else "netral") := rfl
  have hround : roundToR 4 (rawSentimentScore counterexampleTokens) = 1/5 := by
    rw [hraw, roundToR]
    have h1 : round (Real.tanh ((147 : ℝ)/725) * 10 ^ 4) = 2000 := by
      rw [round_eq]
      refine Int.floor_eq_iff.mpr ⟨?_, ?_⟩ <;> push_cast <;> linarith [hb.1, hb.2]
    rw [h1]
    norm_num
  refine ⟨?_, ?_, ?_⟩
  · rw [hl, if_pos (by rw [hraw]; exact hb.1)]
  · rw [hs, hround]
    simp
  · rw [hs, hround]
    norm_num

/-! ### Cosine similarity (`app/recommendation/content_based.py`) -/

/-- `np.dot` on vectors modelled as rational lists. -/
def dot (v w : List ℚ) : ℚ := (List.zipWith (fun a b => a * b) v w).sum

/-- `np.linalg.norm`: the Euclidean norm. -/
noncomputable def vecNorm (v : List ℚ) : ℝ := Real.sqrt ((dot v v : ℚ) : ℝ)

/-- `ContentBasedRecommender._cosine_similarity` (the `None` early
returns are omitted: vectors are always present in this model). -/
noncomputable def cosine_similarity (v w : List ℚ) : ℝ :=
  if vecNorm v = 0 ∨ vecNorm w = 0 then 0
  else ((dot v w : ℚ) : ℝ) / (vecNorm v * vecNorm w)

/-- Auxiliary: the dot product is symmetric. -/
theorem dot_comm (v w : List ℚ) : dot v w = dot w v := by
  unfold dot
  rw [List.zipWith_comm_of_comm _ mul_comm]

/-- Auxiliary: `dot v v` is a sum of squares, hence nonnegative. -/
theorem dot_self_nonneg (v : List ℚ) : 0 ≤ dot v v := by
  unfold dot
  rw [List.zipWith_same]
  exact List.sum_nonneg fun x hx => by
    obtain ⟨a, _, rfl⟩ := List.mem_map.mp hx
    exact mul_self_nonneg a

/-- C8: cosine similarity of a vector with non-zero norm with itself is
exactly 1; cosine similarity is symmetric; and whenever either argument
has zero norm the result is defined to be 0 (no division happens). -/
theorem cosine_similarity_contract :
    (∀ v : List ℚ, vecNorm v ≠ 0 → cosine_similarity v v = 1)
    ∧ (∀ v w : List ℚ, cosine_similarity v w = cosine_similarity w v)
    ∧ (∀ v w : List ℚ, vecNorm v = 0 ∨ vecNorm w = 0 → cosine_similarity v w = 0) := by
  refine ⟨fun v hv => ?_, fun v w => ?_, fun v w h => by rw [cosine_similarity, if_pos h]⟩
  · have hnn : (0:ℝ) ≤ ((dot v v : ℚ) : ℝ) := by exact_mod_cast dot_self_nonneg v
    have hne : ((dot v v : ℚ) : ℝ) ≠ 0 := by
      intro h0
      exact hv (by rw [vecNorm, h0, Real.sqrt_zero])
    rw [cosine_similarity, if_neg (by tauto)]
    rw [vecNorm, Real.mul_self_sqrt hnn]
    exact div_self hne
  · by_cases h1 : vecNorm v = 0 ∨ vecNorm w = 0
    · rw [cosine_similarity, if_pos h1, cosine_similarity, if_pos (Or.symm h1)]
    · rw [cosine_similarity, if_neg h1, cosine_similarity,
        if_neg (fun h => h1 (Or.symm h)), dot_comm, mul_comm]

/-- Witness for C8 at the concrete vector (1, 2). -/
theorem cosine_similarity_contract_witness :
    cosine_similarity [1, 2] [1, 2] = 1 := by
  refine cosine_similarity_contract.1 [1, 2] ?_
  have hd : dot [1, 2] [1, 2] = 5 := by
    have h : dot [1, 2] [1, 2] = 1 * 1 + (2 * 2 + 0) := rfl
    rw [h]
    norm_num
  rw [vecNorm, hd]
  rw [Real.sqrt_ne_zero']
  norm_num

/-! ### Sparse-vector storage round trip (`app/nlp/vectorizer.py`)

The JSON dictionary of `vector_to_json` is modelled as the association
list of its `(index, value)` entries in index order; `json.dumps` /
`json.loads` of that dictionary are faithful and are not re-modelled. -/

/-- `TFIDFVectorizer.vector_to_json`: keep only the non-zero entries
(`np.nonzero`) as index → value pairs. -/
def vector_to_json (v : List ℚ) : List (ℕ × ℚ) :=
  ((List.range v.length).filter fun i => v.getD i 0 ≠ 0).map fun i => (i, v.getD i 0)

/-- Python `x or default` for an int parameter whose default is `None`:
both `None` (modelled `none`) and `0` are falsy and yield the default. -/
def orDefaultNat (x : Option ℕ) (d : ℕ) : ℕ :=
  match x with
  | none => d
  | some v => if v = 0 then d else v

/-- `TFIDFVectorizer.json_to_vector`: first `size = size or
self.max_features` (an omitted or zero size is falsy and falls back to
the configured `max_features`, default 5000 from `NLP_CONFIG`), then
start from `np.zeros(size)` and set every stored entry whose index is
below `size`; out-of-range indices are silently dropped. -/
def json_to_vector (pairs : List (ℕ × ℚ)) (size : Option ℕ) (max_features : ℕ) : List ℚ :=
  let sz := orDefaultNat size max_features
  pairs.foldl (fun acc p => if p.1 < sz then acc.set p.1 p.2 else acc)
    (List.replicate sz 0)

/-- Auxiliary: the entry-setting fold preserves the vector length. -/
theorem setFold_length (pairs : List (ℕ × ℚ)) (size : ℕ) :
    ∀ base : List ℚ,
      (pairs.foldl (fun acc p => if p.1 < size then acc.set p.1 p.2 else acc) base).length
        = base.length := by
  induction pairs with
  | nil => intro base; rfl
  | cons q rest ih =>
    intro base
    rw [List.foldl_cons, ih]
    split <;> simp

/-- Auxiliary: positions not named by any pair are untouched by the
entry-setting fold. -/
theorem setFold_getD_not_mem (size i : ℕ) :
    ∀ (pairs : List (ℕ × ℚ)) (base : List ℚ), i ∉ pairs.map Prod.fst →
      (pairs.foldl (fun acc p => if p.1 < size then acc.set p.1 p.2 else acc) base).getD i 0
        = base.getD i 0 := by
  intro pairs
  induction pairs with
  | nil => intro base _; rfl
  | cons q rest ih =>
    intro base hmem
    simp only [List.map_cons, List.mem_cons, not_or] at hmem
    rw [List.foldl_cons, ih _ hmem.2]
    split
    · rw [List.getD_eq_getElem?_getD, List.getD_eq_getElem?_getD,
        List.getElem?_set_ne (by exact fun h => hmem.1 h.symm)]
    · rfl

/-- Auxiliary: a pair whose index is in range and not repeated later
sets its position. -/
theorem setFold_getD_mem (size i : ℕ) (x : ℚ) :
    ∀ (pairs : List (ℕ × ℚ)) (base : List ℚ), (i, x) ∈ pairs →
      (pairs.map Prod.fst).Nodup → i < size → base.length = size →
      (pairs.foldl (fun acc p => if p.1 < size then acc.set p.1 p.2 else acc) base).getD i 0
        = x := by
  intro pairs
  induction pairs with
  | nil => intro base h; cases h
  | cons q rest ih =>
    intro base hmem hnd hi hlen
    simp only [List.map_cons, List.nodup_cons] at hnd
    rcases List.mem_cons.mp hmem with heq | hrest
    · subst heq
      rw [List.foldl_cons, if_pos hi,
        setFold_getD_not_mem size i rest _ hnd.1]
      rw [List.getD_eq_getElem?_getD, List.getElem?_set_self (by omega)]
      rfl
    · rw [List.foldl_cons]
      refine ih _ hrest hnd.2 hi ?_
      split <;> simp [hlen]

/-- Auxiliary: membership in the serialized pair list. -/
theorem mem_vector_to_json {v : List ℚ} {i : ℕ} {x : ℚ} :
    (i, x) ∈ vector_to_json v ↔ i < v.length ∧ v.getD i 0 = x ∧ x ≠ 0 := by
  simp only [vector_to_json, List.mem_map, List.mem_filter, List.mem_range,
    decide_eq_true_eq, Prod.mk.injEq]
  constructor
  · rintro ⟨j, ⟨hj, hne⟩, rfl, rfl⟩
    exact ⟨hj, rfl, hne⟩
  · rintro ⟨hi, rfl, hne⟩
    exact ⟨i, ⟨hi, hne⟩, rfl, rfl⟩

/-- Auxiliary: the serialized indices are distinct. -/
theorem vector_to_json_nodup (v : List ℚ) :
    ((vector_to_json v).map Prod.fst).Nodup := by
  have hcomp : (Prod.fst ∘ fun i : ℕ => (i, v.getD i 0)) = fun i : ℕ => i := rfl
  have h : (vector_to_json v).map Prod.fst
      = (List.range v.length).filter fun i => v.getD i 0 ≠ 0 := by
    rw [vector_to_json, List.map_map, hcomp, List.map_id']
  rw [h]
  exact (List.nodup_range _).filter _

/-- C7 counterexample: requesting target dimension 0 — in particular
when 0 is the length of the serialized vector, so the claim promises an
exact round trip — triggers the falsy `size = size or self.max_features`
default, and the program returns a length-5000 zero vector instead of a
length-0 vector. -/
theorem vector_roundtrip_counterexample :
    (json_to_vector (vector_to_json []) (some 0) 5000).length = 5000
    ∧ json_to_vector (vector_to_json []) (some 0) 5000 ≠ [] := by
  have h : json_to_vector (vector_to_json []) (some 0) 5000
      = List.replicate 5000 0 := rfl
  rw [h]
  refine ⟨List.length_replicate _ _, fun heq => ?_⟩
  have hlen := congrArg List.length heq
  rw [List.length_replicate] at hlen
  exact absurd hlen (by norm_num)

/-- C7 amended: for every positive target dimension `n`, deserializing
the serialization of `v` yields a length-`n` vector that reproduces
every entry of `v` below index `n` (non-zero entries by the stored
pair, zero entries by the zero fill), drops all entries with index at
least `n`, and reconstructs `v` exactly when `n` is `v`'s length; an
omitted size behaves like size 0, and size 0 is falsy and behaves like
requesting the configured `max_features` dimension. -/
theorem vector_roundtrip (v : List ℚ) (n max_features : ℕ) (hn : n ≠ 0) :
    (json_to_vector (vector_to_json v) (some n) max_features).length = n
    ∧ (∀ i, i < n →
        (json_to_vector (vector_to_json v) (some n) max_features).getD i 0
          = if i < v.length ∧ v.getD i 0 ≠ 0 then v.getD i 0 else 0)
    ∧ (n = v.length → json_to_vector (vector_to_json v) (some n) max_features = v)
    ∧ json_to_vector (vector_to_json v) none max_features
        = json_to_vector (vector_to_json v) (some 0) max_features
    ∧ json_to_vector (vector_to_json v) (some 0) max_features
        = json_to_vector (vector_to_json v) (some max_features) max_features := by
  have hbody : json_to_vector (vector_to_json v) (some n) max_features
      = (vector_to_json v).foldl
          (fun acc p => if p.1 < n then acc.set p.1 p.2 else acc)
          (List.replicate n 0) := by
    have hsz : orDefaultNat (some n) max_features = n := by
      simp [orDefaultNat, hn]
    simp only [json_to_vector, hsz]
  have hlen : (json_to_vector (vector_to_json v) (some n) max_features).length = n := by
    rw [hbody, setFold_length, List.length_replicate]
  have hget : ∀ i, i < n →
      (json_to_vector (vector_to_json v) (some n) max_features).getD i 0
        = if i < v.length ∧ v.getD i 0 ≠ 0 then v.getD i 0 else 0 := by
    intro i hi
    by_cases hcase : i < v.length ∧ v.getD i 0 ≠ 0
    · rw [if_pos hcase, hbody]
      exact setFold_getD_mem n i _ _ _
        (mem_vector_to_json.mpr ⟨hcase.1, rfl, hcase.2⟩)
        (vector_to_json_nodup v) hi (List.length_replicate _ _)
    · have hnm : i ∉ (vector_to_json v).map Prod.fst := by
        intro hmem
        simp only [List.mem_map] at hmem
        obtain ⟨⟨j, x⟩, hjx, rfl⟩ := hmem
        have hj := mem_vector_to_json.mp hjx
        exact hcase ⟨hj.1, fun h0 => hj.2.2 (hj.2.1.symm.trans h0)⟩
      rw [if_neg hcase, hbody, setFold_getD_not_mem n i _ _ hnm,
        List.getD_eq_getElem?_getD, List.getElem?_replicate]
      split <;> rfl
  refine ⟨hlen, hget, fun hne => ?_, rfl, by simp [json_to_vector, orDefaultNat]⟩
  subst hne
  apply List.ext_getElem (by rw [hlen])
  intro i h1 h2
  have h := hget i (by omega)
  rw [List.getD_eq_getElem?_getD, List.getElem?_eq_getElem h1] at h
  simp only [Option.getD_some] at h
  rw [h]
  by_cases hz : v.getD i 0 ≠ 0
  · rw [if_pos ⟨by omega, hz⟩, List.getD_eq_getElem?_getD,
      List.getElem?_eq_getElem h2]
    rfl
  · push_neg at hz
    rw [if_neg (by tauto)]
    rw [List.getD_eq_getElem?_getD, List.getElem?_eq_getElem h2] at hz
    simpa using hz.symm

/-- Witness for C7 amended at the concrete vector (5, 0, 7) with the
default `max_features` of 5000. -/
theorem vector_roundtrip_witness :
    (json_to_vector (vector_to_json [5, 0, 7]) (some 2) 5000).getD 0 0 = 5
    ∧ json_to_vector (vector_to_json [5, 0, 7]) (some 3) 5000 = [5, 0, 7] := by
  constructor
  · have h := (vector_roundtrip [5, 0, 7] 2 5000 (by norm_num)).2.1 0 (by norm_num)
    rw [h, if_pos (by constructor <;> norm_num [List.getD])]
    norm_num [List.getD]
  · exact (vector_roundtrip [5, 0, 7] 3 5000 (by norm_num)).2.2.1 rfl

/-! ### Stock-code extraction (`app/nlp/preprocessor.py`)

`extract_stock_mentions` runs `re.findall(r'\b[A-Z]{4}\b', text.upper())`
and drops a deny-list.  Text is modelled as the list of its character
code points (ASCII); a match of that pattern is exactly a maximal run of
word characters that consists of four uppercase letters. -/

/-- `str.upper` on one ASCII code point. -/
def upChar (c : ℕ) : ℕ := if 97 ≤ c ∧ c ≤ 122 then c - 32 else c

/-- A regex word character (`\w`, ASCII): letter, digit or underscore. -/
def isWordChar (c : ℕ) : Bool :=
  decide ((65 ≤ c ∧ c ≤ 90) ∨ (97 ≤ c ∧ c ≤ 122) ∨ (48 ≤ c ∧ c ≤ 57) ∨ c = 95)

/-- An uppercase ASCII letter (the `[A-Z]` character class). -/
def isUpperAZ (c : ℕ) : Bool := decide (65 ≤ c ∧ c ≤ 90)

/-- Any ASCII letter, either case. -/
def isAlphaChar (c : ℕ) : Bool := decide ((65 ≤ c ∧ c ≤ 90) ∨ (97 ≤ c ∧ c ≤ 122))

/-- Splitter into maximal word-character runs, accumulating the current
run in reverse. -/
def wordsAux : List ℕ → List ℕ → List (List ℕ)
  | [], acc => if acc.isEmpty then [] else [acc.reverse]
  | c :: rest, acc =>
    if isWordChar c then wordsAux rest (c :: acc)
    else if acc.isEmpty then wordsAux rest []
    else acc.reverse :: wordsAux rest []

/-- The maximal word-character runs of a text, in order. -/
def wordsOf (s : List ℕ) : List (List ℕ) := wordsAux s []

/-- `re.findall(r'\b[A-Z]{4}\b', ...)`: the maximal word runs made of
exactly four uppercase letters, in order, with duplicates. -/
def findallStockCodes (s : List ℕ) : List (List ℕ) :=
  (wordsOf s).filter fun w => w.length = 4 ∧ w.all isUpperAZ

/-- The deny-list `exclude` of `extract_stock_mentions`, as code points:
YANG, DARI, AKAN, PADA, JUGA, ATAS, ATAU, BISA, KATA. -/
def excludeWords : List (List ℕ) :=
  [ [89, 65, 78, 71], [68, 65, 82, 73], [65, 75, 65, 78],
    [80, 65, 68, 65], [74, 85, 71, 65], [65, 84, 65, 83],
    [65, 84, 65, 85], [66, 73, 83, 65], [75, 65, 84, 65] ]

/-- `TextPreprocessor.extract_stock_mentions`: uppercase the whole text,
find all `\b[A-Z]{4}\b` matches, drop the deny-listed words. -/
def extract_stock_mentions (text : List ℕ) : List (List ℕ) :=
  (findallStockCodes (text.map upChar)).filter fun w => ¬ w ∈ excludeWords

/-- The claim's description: every purely alphabetic 4-letter word of
the original text, regardless of case, uppercased, in order, with
duplicates, minus the nine deny-listed words. -/
def claimStockMentions (text : List ℕ) : List (List ℕ) :=
  (((wordsOf text).filter fun w => w.length = 4 ∧ w.all isAlphaChar).map
      (List.map upChar)).filter fun w => ¬ w ∈ excludeWords

/-- Auxiliary: uppercasing preserves word-character status. -/
theorem isWordChar_upChar (c : ℕ) : isWordChar (upChar c) = isWordChar c := by
  unfold isWordChar upChar
  split_ifs with h
  · rw [decide_eq_decide]
    omega
  · rfl

/-- Auxiliary: a code point uppercases to A–Z exactly when it is a
letter. -/
theorem isUpperAZ_upChar (c : ℕ) : isUpperAZ (upChar c) = isAlphaChar c := by
  unfold isUpperAZ isAlphaChar upChar
  split_ifs with h
  · rw [decide_eq_decide]
    omega
  · rw [decide_eq_decide]
    omega

/-- Auxiliary: splitting commutes with uppercasing the text. -/
theorem wordsAux_map_upChar :
    ∀ s acc : List ℕ,
      wordsAux (s.map upChar) (acc.map upChar) = (wordsAux s acc).map (List.map upChar) := by
  intro s
  induction s with
  | nil =>
    intro acc
    cases acc <;> simp [wordsAux]
  | cons c rest ih =>
    intro acc
    simp only [List.map_cons, wordsAux, isWordChar_upChar]
    by_cases h : isWordChar c = true
    · rw [if_pos h, if_pos h, ← List.map_cons]
      exact ih (c :: acc)
    · rw [if_neg h, if_neg h]
      cases acc with
      | nil =>
        simp only [List.map_nil, List.isEmpty_nil, if_true]
        exact ih []
      | cons a as =>
        have h0 : wordsAux (List.map upChar rest) ([] : List ℕ)
            = List.map (List.map upChar) (wordsAux rest []) := ih []
        simp [h0, List.map_reverse]

/-- Auxiliary: `wordsOf` commutes with uppercasing. -/
theorem wordsOf_map_upChar (s : List ℕ) :
    wordsOf (s.map upChar) = (wordsOf s).map (List.map upChar) :=
  wordsAux_map_upChar s []

/-- C10: `extract_stock_mentions` uppercases the input before matching,
so it returns exactly the uppercased purely-alphabetic 4-letter words of
the text, in order, with duplicates, minus the nine deny-listed words;
in particular the ordinary lowercase word "bank" is reported as the
stock code "BANK". -/
theorem stock_mentions_case_insensitive :
    (∀ text : List ℕ, extract_stock_mentions text = claimStockMentions text)
    ∧ extract_stock_mentions [98, 97, 110, 107] = [[66, 65, 78, 75]] := by
  constructor
  · intro text
    unfold extract_stock_mentions claimStockMentions findallStockCodes
    rw [wordsOf_map_upChar, List.filter_map]
    congr 1
    congr 1
    apply List.filter_congr
    intro w _
    simp only [Function.comp_apply, decide_eq_decide, List.length_map, List.all_map]
    constructor
    · rintro ⟨h1, h2⟩
      refine ⟨h1, ?_⟩
      rw [show (isUpperAZ ∘ upChar) = isAlphaChar from funext isUpperAZ_upChar] at h2
      exact h2
    · rintro ⟨h1, h2⟩
      refine ⟨h1, ?_⟩
      rw [show (isUpperAZ ∘ upChar) = isAlphaChar from funext isUpperAZ_upChar]
      exact h2
  · rfl

end StockRec
